import Mathlib

/-!
Verification of the rest routing/dispatch library (Go package rest).

The definitions below are a shallow embedding of the repository sources:
  response.go   : Response, ErrorResponse and the convenience responders
  router.go     : SetupRouter dispatch wrappers, match, writeHeaders
  logging state : LogResponseWriter (status/size instrumentation)
  errors/types  : HTTPErrorStatus envelope and the HTTP error sentinels

An http.ResponseWriter is modelled as an explicit state: a list of headers
in insertion order, the sequence of WriteHeader calls, and the body text
written so far.  The Go regexp engine is an external collaborator and is
modelled as an oracle of type String to String to Option Bool, where none
stands for a compilation or matching error.  JSON serialization follows
the jsoniter ConfigCompatibleWithStandardLibrary behaviour for the struct
HTTPErrorStatus: fields in declaration order, omitempty on reason and
validation errors, map keys sorted, HTML-escaping of angle brackets and
ampersand as in the standard library encoder.
-/

namespace Rest

/-- Model of the Go error values that flow into Response.  The five package
sentinels from the HTTP errors block are distinguished constructors; any
other Go error value is modelled by its message text. -/
inductive GoErr where
  | errBadRequest
  | errUnauthorized
  | errNotFound
  | errConflict
  | errUnprocessableEntity
  | other (msg : String)
deriving DecidableEq, Repr

/-- The result of calling the Error method on a GoErr value, per the
errors.New calls of the HTTP errors block. -/
def GoErr.errorText : GoErr → String
  | .errBadRequest => "400"
  | .errUnauthorized => "401"
  | .errNotFound => "404"
  | .errConflict => "409"
  | .errUnprocessableEntity => "422"
  | .other msg => msg

/-- Model of net/http StatusText, restricted to the status codes this
package can produce (an external stdlib collaborator). -/
def statusText (code : Nat) : String :=
  if code = 200 then "OK"
  else if code = 400 then "Bad Request"
  else if code = 401 then "Unauthorized"
  else if code = 403 then "Forbidden"
  else if code = 404 then "Not Found"
  else if code = 405 then "Method Not Allowed"
  else if code = 409 then "Conflict"
  else if code = 422 then "Unprocessable Entity"
  else if code = 500 then "Internal Server Error"
  else ""

/-- Explicit state of an http.ResponseWriter: headers in insertion order,
the list of WriteHeader calls in order, and the accumulated body text. -/
structure ResponseWriter where
  headers : List (String × String)
  statusCalls : List Nat
  body : String
deriving DecidableEq, Repr

/-- A fresh response writer, before any handler touched it. -/
def ResponseWriter.empty : ResponseWriter := ⟨[], [], ""⟩

/-- Header().Set: delete every value stored for the key, then store the
given one. -/
def ResponseWriter.setHeader (w : ResponseWriter) (k v : String) : ResponseWriter :=
  { w with headers := w.headers.filter (fun p => p.1 != k) ++ [(k, v)] }

/-- Header().Add: append a value for the key, keeping existing ones. -/
def ResponseWriter.addHeader (w : ResponseWriter) (k v : String) : ResponseWriter :=
  { w with headers := w.headers ++ [(k, v)] }

/-- WriteHeader: record the status code call. -/
def ResponseWriter.writeHeader (w : ResponseWriter) (status : Nat) : ResponseWriter :=
  { w with statusCalls := w.statusCalls ++ [status] }

/-- Write: append text to the body. -/
def ResponseWriter.writeBody (w : ResponseWriter) (s : String) : ResponseWriter :=
  { w with body := w.body ++ s }

/-- The values stored for a header key, in order. -/
def ResponseWriter.getHeaderValues (w : ResponseWriter) (k : String) : List String :=
  (w.headers.filter (fun p => p.1 == k)).map (fun p => p.2)

/-- The status the transport would send: the first WriteHeader call, none
if the handler never called WriteHeader. -/
def ResponseWriter.firstStatus (w : ResponseWriter) : Option Nat :=
  w.statusCalls.head?

/-- HTTPErrorStatus is the struct the user receives as body; reason and
validation errors carry omitempty JSON tags. -/
structure HTTPErrorStatus where
  code : Nat
  message : String
  reason : String
  validationErrors : List (String × String)
deriving DecidableEq, Repr

/-- Lower-case hex digit, as produced by the JSON encoder for escapes. -/
def jsonHexDigit (n : Nat) : Char :=
  if n < 10 then Char.ofNat (48 + n) else Char.ofNat (87 + n)

/-- Escaping of a single character by the standard-library-compatible JSON
encoder: quote, backslash, newline, carriage return and tab have short
escapes, angle brackets and ampersand are HTML-escaped, remaining control
characters use a u00XX escape, everything else is kept. -/
def jsonEscapeChar (c : Char) : String :=
  if c = '"' then "\\\""
  else if c = '\\' then "\\\\"
  else if c = '\n' then "\\n"
  else if c = '\r' then "\\r"
  else if c = '\t' then "\\t"
  else if c = '<' then "\\u003c"
  else if c = '>' then "\\u003e"
  else if c = '&' then "\\u0026"
  else if c.toNat < 32 then
    "\\u00" ++ String.mk [jsonHexDigit (c.toNat / 16), jsonHexDigit (c.toNat % 16)]
  else String.mk [c]

/-- JSON string literal for a Go string. -/
def jsonString (s : String) : String :=
  "\"" ++ String.join (s.data.map jsonEscapeChar) ++ "\""

/-- JSON object from already-encoded field values, in the given order. -/
def jsonObject (fields : List (String × String)) : String :=
  "\x7b" ++ String.intercalate "," (fields.map (fun p => jsonString p.1 ++ ":" ++ p.2)) ++ "\x7d"

/-- Insertion step for sorting map entries by key, as the standard-library
compatible encoder sorts Go map keys before emitting them. -/
def insertByKey (p : String × String) : List (String × String) → List (String × String)
  | [] => [p]
  | q :: qs =>
    if compare p.1 q.1 = Ordering.gt then q :: insertByKey p qs else p :: q :: qs

/-- Sort map entries by key. -/
def sortByKey (l : List (String × String)) : List (String × String) :=
  l.foldr insertByKey []

/-- Serialization of HTTPErrorStatus: code and message always present, the
reason key omitted when the reason is empty, the validation errors key
omitted when the mapping is empty, map keys sorted. -/
def encodeHTTPErrorStatus (e : HTTPErrorStatus) : String :=
  jsonObject
    ([("code", toString e.code), ("message", jsonString e.message)]
      ++ (if e.reason = "" then [] else [("reason", jsonString e.reason)])
      ++ (if e.validationErrors.isEmpty then []
          else [("validation_errors",
                 jsonObject ((sortByKey e.validationErrors).map (fun p => (p.1, jsonString p.2))))]))

/-- ErrorResponse from response.go: write the status, build the envelope
with the canonical status text and the optional reason, encode it to the
body (the stream encoder appends a newline), return the status. -/
def ErrorResponse (w : ResponseWriter) (status : Nat) (reason : String) : ResponseWriter × Nat :=
  let w := w.writeHeader status
  let err : HTTPErrorStatus :=
    { code := status
      message := statusText status
      reason := if reason != "" then reason else ""
      validationErrors := [] }
  (w.writeBody (encodeHTTPErrorStatus err ++ "\n"), status)

/-- Response from response.go.  The success payload is abstract, together
with an encoder enc standing for its JSON serialization.  The switch
recognizes ErrConflict, ErrBadRequest and ErrUnauthorized; every other
non-nil error falls to the final branch, which additionally prints an
Unknown err diagnostic to stdout (not modelled) and answers 500 with the
error text as reason. -/
def Response {α : Type} (enc : α → String) (w : ResponseWriter) (response : Option α)
    (err : Option GoErr) (desiredStatus : Nat) (location : String) : ResponseWriter × Nat :=
  let w := w.setHeader "Content-Type" "application/json; charset=utf-8"
  let w := w.setHeader "Accept" "application/json"
  match err with
  | none =>
    let w := if location != "" then w.setHeader "Location" location else w
    let w := w.writeHeader desiredStatus
    let w := match response with
      | some r => w.writeBody (enc r ++ "\n")
      | none => w
    (w, desiredStatus)
  | some .errConflict => ErrorResponse w 409 ""
  | some .errBadRequest => ErrorResponse w 400 ""
  | some .errUnauthorized => ErrorResponse w 401 ""
  | some e => ErrorResponse w 500 e.errorText

/-- ResponseErr from response.go: Response with no payload, status 200 and
no location. -/
def ResponseErr (w : ResponseWriter) (err : Option GoErr) : ResponseWriter × Nat :=
  Response (fun _ : Unit => "") w none err 200 ""

/-- A request as seen by the dispatch layer: URL path, request URI and
remote address. -/
structure Request where
  urlPath : String
  requestURI : String
  remoteAddr : String
deriving DecidableEq, Repr

/-- NotFound responder from response.go. -/
def NotFound (w : ResponseWriter) (r : Request) : ResponseWriter :=
  (ErrorResponse w 404 "").1

/-- NotAllowed responder from response.go. -/
def NotAllowed (w : ResponseWriter) (r : Request) : ResponseWriter :=
  (ErrorResponse w 405 "").1

/-- BadRequest responder from response.go. -/
def BadRequest (w : ResponseWriter) (r : Request) (reason : String) : ResponseWriter :=
  (ErrorResponse w 400 reason).1

/-- BadRequestValidation from response.go: write status 400, build the
envelope with optional reason and optional validation errors, encode. -/
def BadRequestValidation (w : ResponseWriter) (r : Request) (reason : String)
    (validationErrors : List (String × String)) : ResponseWriter :=
  let status := 400
  let w := w.writeHeader status
  let errResponse : HTTPErrorStatus :=
    { code := status
      message := statusText status
      reason := if reason != "" then reason else ""
      validationErrors := if validationErrors.length > 0 then validationErrors else [] }
  w.writeBody (encodeHTTPErrorStatus errResponse ++ "\n")

/-- Forbidden responder from response.go. -/
def Forbidden (w : ResponseWriter) (r : Request) (reason : String) : ResponseWriter :=
  (ErrorResponse w 403 reason).1

/-- Unauthorized responder from response.go. -/
def Unauthorized (w : ResponseWriter) (r : Request) : ResponseWriter :=
  (ErrorResponse w 401 "").1

/-- Auxiliary split of a character list on the slash character. -/
def splitSlashAux : List Char → List Char → List String
  | [], acc => [String.mk acc.reverse]
  | c :: cs, acc =>
    if c = '/' then String.mk acc.reverse :: splitSlashAux cs []
    else splitSlashAux cs (c :: acc)

/-- strings.Split(path, slash) as used by match: empty input yields one
empty segment, separators at the ends yield empty segments. -/
def splitSlash (s : String) : List String :=
  splitSlashAux s.data []

/-- A pattern the matcher skips without consulting the regex engine. -/
def trivialPat (m : String) : Prop := m = "" ∨ m = ".*"

instance (m : String) : Decidable (trivialPat m) :=
  if h1 : m = "" then .isTrue (Or.inl h1)
  else if h2 : m = ".*" then .isTrue (Or.inr h2)
  else .isFalse (fun h => h.elim h1 h2)

/-- The loop of match over the remaining patterns; i is the index of the
current pattern, segment i+1 of the split path is inspected.  A result of
none models the runtime fault raised by indexing past the segment list;
a regex error or a non-match returns false; exhausting the patterns
returns true. -/
def matchLoop (regex : String → String → Option Bool) :
    List String → List String → Nat → Option Bool
  | [], _, _ => some true
  | m :: ms, routeParts, i =>
    if m ≠ "" ∧ m ≠ ".*" then
      match routeParts[i+1]? with
      | none => none
      | some seg =>
        match regex m seg with
        | some true => matchLoop regex ms routeParts (i+1)
        | _ => some false
    else matchLoop regex ms routeParts (i+1)

/-- match from router.go: an empty matcher accepts everything, otherwise
the request path is split on slashes and each pattern is checked against
the segment one past its own index.  The route argument is unused, as in
the source. -/
def matchGo (regex : String → String → Option Bool) (route : String)
    (matcher : List String) (path : String) : Option Bool :=
  if matcher.length = 0 then some true
  else matchLoop regex matcher (splitSlash path) 0

/-- LogResponseWriter state: recorded status (zero until WriteHeader is
called) and total of the byte counts the wrapped sink reported. -/
structure LogResponseWriter where
  status : Nat
  size : Nat
deriving DecidableEq, Repr

/-- One call observed by a LogResponseWriter.  A write event carries the
payload handed to Write together with the byte count and error the
wrapped sink returned for it (the sink is the external transport). -/
inductive SinkEvent where
  | write (p : String) (sinkN : Nat) (sinkErr : Option String)
  | writeHeader (code : Nat)
deriving DecidableEq, Repr

/-- One step of a LogResponseWriter: Write adds the count the sink
returned to the size and returns the pair the sink returned; WriteHeader
records the code.  The second component is the value Write returns, none
for a WriteHeader call. -/
def lrwStep (w : LogResponseWriter) : SinkEvent → LogResponseWriter × Option (Nat × Option String)
  | .write _ n e => (⟨w.status, w.size + n⟩, some (n, e))
  | .writeHeader c => (⟨c, w.size⟩, none)

/-- Run a sequence of calls on a freshly wrapped writer, whose fields
start at their zero values. -/
def lrwRun (evs : List SinkEvent) : LogResponseWriter :=
  evs.foldl (fun w ev => (lrwStep w ev).1) ⟨0, 0⟩

/-- The argument of the most recent WriteHeader call in a sequence, zero
when there is none. -/
def lastHeaderStatus (evs : List SinkEvent) : Nat :=
  ((evs.filterMap (fun ev => match ev with | .writeHeader c => some c | _ => none)).getLast?).getD 0

/-- The sum of the byte counts the wrapped sink returned across all Write
calls of a sequence. -/
def sinkBytesTotal (evs : List SinkEvent) : Nat :=
  (evs.filterMap (fun ev => match ev with | .write _ n _ => some n | _ => none)).sum

/-- An access-log record as produced by REST.log via the zap logger: the
error flag, the message, and the call arguments.  The elapsed duration is
wall-clock time and is not modelled. -/
structure LogEntry where
  isErr : Bool
  msg : String
  method : String
  route : String
  uri : String
  remote : String
  code : Nat
  size : Nat
deriving DecidableEq, Repr

/-- Lookup in the options mappings; a missing key yields the empty list,
as a Go map read of a missing key yields nil. -/
def lookupOM (om : List (String × List String)) (route : String) : List String :=
  ((om.find? (fun p => p.1 == route)).map Prod.snd).getD []

/-- One step of building the options mappings in SetupRouter: if the
route is present, append the method to its list, else create the entry. -/
def insertOM (om : List (String × List String)) (route method : String) :
    List (String × List String) :=
  if om.any (fun p => p.1 == route) then
    om.map (fun p => if p.1 == route then (p.1, p.2 ++ [method]) else p)
  else om ++ [(route, [method])]

/-- The options-mappings construction loop of SetupRouter.  The Go route
table is a map from method to a map from route to endpoint; here it is a
list of methods paired with their route lists, in some iteration order. -/
def buildOptionsMappings (routes : List (String × List String)) :
    List (String × List String) :=
  routes.foldl (fun om mr => mr.2.foldl (fun om route => insertOM om route mr.1) om) []

/-- The methods under which a route is registered, in table order. -/
def registeredMethods (routes : List (String × List String)) (route : String) : List String :=
  (routes.filter (fun p => p.2.contains route)).map Prod.fst

/-- writeHeaders from router.go: the fixed CORS and security header set,
with the allow-methods value computed from the options mappings. -/
def writeHeaders (om : List (String × List String)) (w : ResponseWriter) (route : String) :
    ResponseWriter :=
  ((((((w.addHeader "Access-Control-Allow-Origin" "*").addHeader
      "Access-Control-Allow-Headers"
      "Origin, X-Requested-With, Content-Type, Accept, X-Session-Token").addHeader
      "Access-Control-Allow-Methods"
      ("OPTIONS, " ++ String.intercalate ", " (lookupOM om route))).addHeader
      "X-Content-Type-Options" "nosniff").addHeader
      "X-Frame-Options" "DENY").addHeader
      "X-XSS-Protection" "1; mode=block")

/-- A LogResponseWriter wrapped around a concrete ResponseWriter: the
handler writes through it, header access reaches the shared base. -/
structure WrappedWriter where
  base : ResponseWriter
  status : Nat
  size : Nat
deriving DecidableEq, Repr

/-- WriteHeader through the wrapper: record the code, forward it. -/
def WrappedWriter.writeHeader (ww : WrappedWriter) (code : Nat) : WrappedWriter :=
  ⟨ww.base.writeHeader code, code, ww.size⟩

/-- The dispatch wrapper SetupRouter installs for a registered
(method, route, endpoint) triple.  The handler invocation is abstracted
as a function on the wrapped writer.  A result of none models the
runtime fault propagating out of match.  In the source the instrumented
writer is created before writeHeaders runs on the shared base; here the
base is updated in place, which is the same state. -/
def routeWrapper (regex : String → String → Option Bool) (tlsOn : Bool)
    (om : List (String × List String)) (method route : String) (matcher : List String)
    (handler : WrappedWriter → WrappedWriter) (r : Request) (w : ResponseWriter) :
    Option (ResponseWriter × LogEntry) :=
  let w := if tlsOn then
      w.addHeader "Strict-Transport-Security" "max-age=31536000; includeSubDomains"
    else w
  match matchGo regex route matcher r.urlPath with
  | none => none
  | some true =>
    let ww := handler ⟨writeHeaders om w route, 0, 0⟩
    some (ww.base, ⟨false, "hit", method, route, r.requestURI, r.remoteAddr, ww.status, ww.size⟩)
  | some false =>
    some (BadRequest w r "route does not match",
      ⟨true, "hit", method, route, r.requestURI, r.remoteAddr, 400, 0⟩)

/-- The synthesized OPTIONS wrapper SetupRouter installs for each
registered route: security headers, the CORS header set, status 200, no
body, and a non-error log entry with the recorded status and size. -/
def optionsWrapper (tlsOn : Bool) (om : List (String × List String)) (route : String)
    (r : Request) (w : ResponseWriter) : ResponseWriter × LogEntry :=
  let w := if tlsOn then
      w.addHeader "Strict-Transport-Security" "max-age=31536000; includeSubDomains"
    else w
  let ww : WrappedWriter := ⟨writeHeaders om w route, 0, 0⟩
  let ww := ww.writeHeader 200
  (ww.base, ⟨false, "hit", "OPTIONS", route, r.requestURI, r.remoteAddr, ww.status, ww.size⟩)

theorem getHeaderValues_writeHeader (w : ResponseWriter) (s : Nat) (q : String) :
    (w.writeHeader s).getHeaderValues q = w.getHeaderValues q := rfl

theorem getHeaderValues_writeBody (w : ResponseWriter) (s q : String) :
    (w.writeBody s).getHeaderValues q = w.getHeaderValues q := rfl

theorem filter_removed_key (hs : List (String × String)) (k : String) :
    (hs.filter (fun p => p.1 != k)).filter (fun p => p.1 == k) = [] := by
  induction hs with
  | nil => rfl
  | cons a t ih =>
    by_cases ha : a.1 = k
    · simp [List.filter_cons, ha, ih]
    · simp [List.filter_cons, ha, ih]

theorem getHeaderValues_setHeader (w : ResponseWriter) (k v q : String) :
    (w.setHeader k v).getHeaderValues q
      = if k = q then [v] else w.getHeaderValues q := by
  simp only [ResponseWriter.setHeader, ResponseWriter.getHeaderValues, List.filter_append,
    List.map_append]
  by_cases h : k = q
  · subst h
    rw [filter_removed_key]
    simp [List.filter_cons]
  · have hfk : ∀ t : List (String × String),
        (t.filter (fun p => p.1 != k)).filter (fun p => p.1 == q)
          = t.filter (fun p => p.1 == q) := by
      intro t
      induction t with
      | nil => rfl
      | cons a t iht =>
        by_cases hak : a.1 = k
        · have haq : ¬ a.1 = q := by rw [hak]; exact h
          simp [List.filter_cons, hak, haq, iht, h]
        · simp [List.filter_cons, hak, iht]
    rw [hfk]
    simp [List.filter_cons, h]

theorem getHeaderValues_addHeader (w : ResponseWriter) (k v q : String) :
    (w.addHeader k v).getHeaderValues q
      = w.getHeaderValues q ++ (if k = q then [v] else []) := by
  by_cases h : k = q
  · subst h
    simp [ResponseWriter.addHeader, ResponseWriter.getHeaderValues, List.filter_append,
      List.filter_cons]
  · simp [ResponseWriter.addHeader, ResponseWriter.getHeaderValues, List.filter_append,
      List.filter_cons, h]

/-- C1: the claim says Response maps each of the five sentinels to its
fixed status 400, 401, 404, 409 and 422.  The switch in response.go only
recognizes ErrConflict, ErrBadRequest and ErrUnauthorized; ErrNotFound
and ErrUnprocessableEntity fall through to the unknown-error branch,
which answers 500 with the sentinel text as reason instead of 404 or 422
with no reason.  This theorem evaluates Response at the failing inputs
and also records the three sentinels that do map as documented. -/
theorem response_errNotFound_gives_500 :
    (Response (fun _ : Unit => "") ResponseWriter.empty none (some GoErr.errNotFound) 200 "").2 = 500
    ∧ (Response (fun _ : Unit => "") ResponseWriter.empty none (some GoErr.errNotFound) 200 "").1.body
        = "\x7b\"code\":500,\"message\":\"Internal Server Error\",\"reason\":\"404\"\x7d\n"
    ∧ (Response (fun _ : Unit => "") ResponseWriter.empty none (some GoErr.errUnprocessableEntity) 200 "").2 = 500
    ∧ (Response (fun _ : Unit => "") ResponseWriter.empty none (some GoErr.errUnprocessableEntity) 200 "").1.body
        = "\x7b\"code\":500,\"message\":\"Internal Server Error\",\"reason\":\"422\"\x7d\n"
    ∧ (Response (fun _ : Unit => "") ResponseWriter.empty none (some GoErr.errBadRequest) 200 "").2 = 400
    ∧ (Response (fun _ : Unit => "") ResponseWriter.empty none (some GoErr.errUnauthorized) 200 "").2 = 401
    ∧ (Response (fun _ : Unit => "") ResponseWriter.empty none (some GoErr.errConflict) 200 "").2 = 409 := by
  decide

/-- C2: counterexample to the claim that every error-envelope response
carries Content-Type application/json; charset=utf-8.  NotFound writes
the 404 envelope through ErrorResponse, which never touches the headers:
on a fresh writer the response has no Content-Type header at all. -/
theorem notFound_sets_no_content_type :
    (NotFound ResponseWriter.empty ⟨"", "/missing", "client"⟩).getHeaderValues "Content-Type" = []
    ∧ (NotFound ResponseWriter.empty ⟨"", "/missing", "client"⟩).body
        = "\x7b\"code\":404,\"message\":\"Not Found\"\x7d\n" := by
  decide

/-- C2 (amended): Response sets Content-Type application/json;
charset=utf-8 on every branch, including the sentinel error envelopes it
delegates to ErrorResponse; the convenience responders ErrorResponse,
BadRequest, BadRequestValidation, NotFound, NotAllowed, Unauthorized and
Forbidden leave the header state exactly as they found it, so their
envelopes carry that Content-Type only when the caller already set it. -/
theorem content_type_from_Response_only {α : Type} (enc : α → String) (w : ResponseWriter)
    (resp : Option α) (err : Option GoErr) (desiredStatus : Nat) (location : String)
    (w2 : ResponseWriter) (status : Nat) (reason : String) (r : Request)
    (ve : List (String × String)) :
    (Response enc w resp err desiredStatus location).1.getHeaderValues "Content-Type"
        = ["application/json; charset=utf-8"]
    ∧ (ErrorResponse w2 status reason).1.headers = w2.headers
    ∧ (BadRequest w2 r reason).headers = w2.headers
    ∧ (BadRequestValidation w2 r reason ve).headers = w2.headers
    ∧ (NotFound w2 r).headers = w2.headers
    ∧ (NotAllowed w2 r).headers = w2.headers
    ∧ (Unauthorized w2 r).headers = w2.headers
    ∧ (Forbidden w2 r reason).headers = w2.headers := by
  have hAcc : ¬ ("Accept" = "Content-Type") := by decide
  have hLoc : ¬ ("Location" = "Content-Type") := by decide
  have hbase : ∀ w3 : ResponseWriter,
      ((w3.setHeader "Content-Type" "application/json; charset=utf-8").setHeader
        "Accept" "application/json").getHeaderValues "Content-Type"
        = ["application/json; charset=utf-8"] := by
    intro w3
    rw [getHeaderValues_setHeader, if_neg hAcc, getHeaderValues_setHeader, if_pos rfl]
  refine ⟨?_, rfl, rfl, rfl, rfl, rfl, rfl, rfl⟩
  cases err with
  | none =>
    cases resp <;>
      · simp only [Response]
        split <;>
          simp [ErrorResponse, getHeaderValues_writeHeader, getHeaderValues_writeBody,
            getHeaderValues_setHeader, hLoc, hbase]
  | some e =>
    cases e <;>
      simp [Response, ErrorResponse, getHeaderValues_writeHeader, getHeaderValues_writeBody,
        hbase]

/-- C3: the matcher can index past the segment list.  There are a
non-empty matcher with a non-trivial pattern at index i and a request
path whose slash-split form has at most i+1 parts on which match commits
a runtime fault (modelled as none) instead of a deterministic no-match,
whatever the regex engine answers. -/
theorem match_fault_exists :
    ∃ (matcher : List String) (i : Nat) (path : String),
      matcher ≠ [] ∧ i < matcher.length ∧ ¬ trivialPat (matcher.getD i "")
      ∧ (splitSlash path).length ≤ i + 1
      ∧ ∀ (regex : String → String → Option Bool) (route : String),
          matchGo regex route matcher path = none := by
  refine ⟨[".*", "x"], 1, "/a", by decide, by decide, by decide, by decide, ?_⟩
  intro regex route
  rfl

/-- C8: the error envelope built for status 400 with reason X and the
validation mapping field to msg serializes with code 400, the canonical
message Bad Request, the reason and the validation errors, and the
reason and validation keys disappear entirely when their inputs are
empty; the same holds for the body BadRequestValidation writes. -/
theorem envelope_serialization_roundtrip :
    encodeHTTPErrorStatus ⟨400, statusText 400, "X", [("field", "msg")]⟩
        = "\x7b\"code\":400,\"message\":\"Bad Request\",\"reason\":\"X\",\"validation_errors\":\x7b\"field\":\"msg\"\x7d\x7d"
    ∧ encodeHTTPErrorStatus ⟨400, statusText 400, "", [("field", "msg")]⟩
        = "\x7b\"code\":400,\"message\":\"Bad Request\",\"validation_errors\":\x7b\"field\":\"msg\"\x7d\x7d"
    ∧ encodeHTTPErrorStatus ⟨400, statusText 400, "X", []⟩
        = "\x7b\"code\":400,\"message\":\"Bad Request\",\"reason\":\"X\"\x7d"
    ∧ encodeHTTPErrorStatus ⟨400, statusText 400, "", []⟩
        = "\x7b\"code\":400,\"message\":\"Bad Request\"\x7d"
    ∧ (BadRequestValidation ResponseWriter.empty ⟨"", "", ""⟩ "X" [("field", "msg")]).body
        = "\x7b\"code\":400,\"message\":\"Bad Request\",\"reason\":\"X\",\"validation_errors\":\x7b\"field\":\"msg\"\x7d\x7d\n"
    ∧ (BadRequestValidation ResponseWriter.empty ⟨"", "", ""⟩ "" []).body
        = "\x7b\"code\":400,\"message\":\"Bad Request\"\x7d\n"
    ∧ (BadRequestValidation ResponseWriter.empty ⟨"", "", ""⟩ "" []).firstStatus = some 400 := by
  decide

@[simp] theorem body_setHeader (w : ResponseWriter) (k v : String) :
    (w.setHeader k v).body = w.body := rfl

@[simp] theorem body_addHeader (w : ResponseWriter) (k v : String) :
    (w.addHeader k v).body = w.body := rfl

@[simp] theorem body_writeHeader (w : ResponseWriter) (s : Nat) :
    (w.writeHeader s).body = w.body := rfl

@[simp] theorem body_writeBody (w : ResponseWriter) (s : String) :
    (w.writeBody s).body = w.body ++ s := rfl

@[simp] theorem statusCalls_setHeader (w : ResponseWriter) (k v : String) :
    (w.setHeader k v).statusCalls = w.statusCalls := rfl

@[simp] theorem statusCalls_addHeader (w : ResponseWriter) (k v : String) :
    (w.addHeader k v).statusCalls = w.statusCalls := rfl

@[simp] theorem statusCalls_writeBody (w : ResponseWriter) (s : String) :
    (w.writeBody s).statusCalls = w.statusCalls := rfl

@[simp] theorem statusCalls_writeHeader (w : ResponseWriter) (s : Nat) :
    (w.writeHeader s).statusCalls = w.statusCalls ++ [s] := rfl

@[simp] theorem headers_writeHeader (w : ResponseWriter) (s : Nat) :
    (w.writeHeader s).headers = w.headers := rfl

@[simp] theorem headers_writeBody (w : ResponseWriter) (s : String) :
    (w.writeBody s).headers = w.headers := rfl

theorem ErrorResponse_envelope (w : ResponseWriter) (status : Nat) (reason : String) :
    ErrorResponse w status reason
      = ((w.writeHeader status).writeBody
          (encodeHTTPErrorStatus ⟨status, statusText status, reason, []⟩ ++ "\n"), status) := by
  unfold ErrorResponse
  by_cases hr : reason = ""
  · subst hr; rfl
  · have h2 : (reason != "") = true := bne_iff_ne.mpr hr
    simp [h2]

/-- The status the specification assigns to each sentinel; the fallback
branch of Response answers 500 for anything outside the sentinel set. -/
def sentinelFixedStatus : GoErr → Nat
  | .errBadRequest => 400
  | .errUnauthorized => 401
  | .errNotFound => 404
  | .errConflict => 409
  | .errUnprocessableEntity => 422
  | .other _ => 500

theorem Response_recognized_sentinel {α : Type} (enc : α → String) (w : ResponseWriter)
    (p : Option α) (s : Nat) (l : String) (e : GoErr)
    (he : e = GoErr.errBadRequest ∨ e = GoErr.errUnauthorized ∨ e = GoErr.errConflict) :
    Response enc w p (some e) s l
      = ErrorResponse ((w.setHeader "Content-Type" "application/json; charset=utf-8").setHeader
          "Accept" "application/json") (sentinelFixedStatus e) "" := by
  rcases he with h | h | h <;> subst h <;> rfl

/-- C10: for a non-nil error the switch in Response recognizes (which is
ErrBadRequest, ErrUnauthorized or ErrConflict), the response written is
independent of the payload, the desired status and the location
arguments: the two calls produce identical writer states and return
values whatever those arguments are, no Location header is added, and
the body receives exactly the error envelope of the fixed status. -/
theorem response_sentinel_frame {α β : Type} (enc : α → String) (enc2 : β → String)
    (w : ResponseWriter) (e : GoErr)
    (he : e = GoErr.errBadRequest ∨ e = GoErr.errUnauthorized ∨ e = GoErr.errConflict)
    (p1 : Option α) (p2 : Option β) (s1 s2 : Nat) (l1 l2 : String) :
    Response enc w p1 (some e) s1 l1 = Response enc2 w p2 (some e) s2 l2
    ∧ (Response enc w p1 (some e) s1 l1).1.getHeaderValues "Location"
        = w.getHeaderValues "Location"
    ∧ (Response enc w p1 (some e) s1 l1).1.body
        = w.body ++ encodeHTTPErrorStatus
            ⟨sentinelFixedStatus e, statusText (sentinelFixedStatus e), "", []⟩ ++ "\n"
    ∧ (Response enc w p1 (some e) s1 l1).2 = sentinelFixedStatus e := by
  have hR := Response_recognized_sentinel enc w p1 s1 l1 e he
  have hR2 := Response_recognized_sentinel enc2 w p2 s2 l2 e he
  rw [hR, hR2]
  refine ⟨rfl, ?_, ?_, ?_⟩
  · rw [ErrorResponse_envelope]
    rw [getHeaderValues_writeBody, getHeaderValues_writeHeader,
      getHeaderValues_setHeader, if_neg (by decide), getHeaderValues_setHeader,
      if_neg (by decide)]
  · rw [ErrorResponse_envelope]
    simp [String.append_assoc]
  · rw [ErrorResponse_envelope]

/-- C10 witness: the hypothesis holds for ErrConflict and the theorem
applies at concrete, differing payloads, statuses and locations. -/
theorem response_sentinel_frame_app :
    (GoErr.errConflict = GoErr.errBadRequest ∨ GoErr.errConflict = GoErr.errUnauthorized
      ∨ GoErr.errConflict = GoErr.errConflict)
    ∧ Response (fun _ : Unit => "ignored") ResponseWriter.empty (some ())
        (some GoErr.errConflict) 200 "/loc"
        = Response (fun n : Nat => toString n) ResponseWriter.empty none
            (some GoErr.errConflict) 503 "" :=
  ⟨Or.inr (Or.inr rfl),
    (response_sentinel_frame (fun _ : Unit => "ignored") (fun n : Nat => toString n)
      ResponseWriter.empty GoErr.errConflict (Or.inr (Or.inr rfl)) (some ()) none
      200 503 "/loc" "").1⟩

theorem lrw_foldl_status (evs : List SinkEvent) : ∀ (w : LogResponseWriter),
    (evs.foldl (fun w ev => (lrwStep w ev).1) w).status
      = ((evs.filterMap (fun ev => match ev with
          | .writeHeader c => some c | _ => none)).getLast?).getD w.status := by
  induction evs with
  | nil => intro w; rfl
  | cons ev evs ih =>
    intro w
    cases ev with
    | write p n e =>
      simp only [List.foldl_cons, List.filterMap_cons]
      exact ih _
    | writeHeader c =>
      simp only [List.foldl_cons, List.filterMap_cons]
      rw [ih]
      generalize (evs.filterMap (fun ev => match ev with
        | .writeHeader c => some c | _ => none)) = l
      cases hl : l.getLast? with
      | none =>
        have : l = [] := by
          cases l with
          | nil => rfl
          | cons x xs => simp [List.getLast?_cons_cons] at hl
        subst this
        rfl
      | some y =>
        have h1 : (c :: l).getLast? = some y := by
          cases l with
          | nil => simp at hl
          | cons x xs => rw [List.getLast?_cons_cons]; exact hl
        rw [h1]
        rfl

theorem lrw_foldl_size (evs : List SinkEvent) : ∀ (w : LogResponseWriter),
    (evs.foldl (fun w ev => (lrwStep w ev).1) w).size
      = w.size + (evs.filterMap (fun ev => match ev with
          | .write _ n _ => some n | _ => none)).sum := by
  induction evs with
  | nil => intro w; simp
  | cons ev evs ih =>
    intro w
    cases ev with
    | write p n e =>
      simp only [List.foldl_cons, List.filterMap_cons, List.sum_cons]
      rw [ih]
      show w.size + n + _ = _
      omega
    | writeHeader c =>
      simp only [List.foldl_cons, List.filterMap_cons]
      exact ih _

/-- C7: over any sequence of Write and WriteHeader calls, the recorded
status is the argument of the most recent WriteHeader call (zero if
there was none), the recorded size is the sum of the byte counts the
wrapped sink returned across all Write calls, and each Write returns
exactly the pair the wrapped sink returned. -/
theorem log_response_writer_state (evs : List SinkEvent) :
    (lrwRun evs).status = lastHeaderStatus evs
    ∧ (lrwRun evs).size = sinkBytesTotal evs
    ∧ ∀ (w : LogResponseWriter) (p : String) (n : Nat) (e : Option String),
        (lrwStep w (.write p n e)).2 = some (n, e) := by
  refine ⟨?_, ?_, fun w p n e => rfl⟩
  · unfold lrwRun lastHeaderStatus
    exact lrw_foldl_status evs ⟨0, 0⟩
  · unfold lrwRun sinkBytesTotal
    rw [lrw_foldl_size]
    exact Nat.zero_add _

theorem matchLoop_all_trivial (regex : String → String → Option Bool)
    (parts : List String) : ∀ (ms : List String) (i : Nat),
    (∀ m ∈ ms, trivialPat m) → matchLoop regex ms parts i = some true := by
  intro ms
  induction ms with
  | nil => intro i _; rfl
  | cons m t ih =>
    intro i h
    have hm : trivialPat m := h m (by simp)
    have hcond : ¬ (m ≠ "" ∧ m ≠ ".*") := by
      rcases hm with h1 | h2
      · exact fun hc => hc.1 h1
      · exact fun hc => hc.2 h2
    simp only [matchLoop, if_neg hcond]
    exact ih (i + 1) (fun x hx => h x (by simp [hx]))

/-- C9: when every pattern of the matcher is the empty string or dot
star, match accepts every request path with at least as many segments
as there are patterns, whatever the regex engine would answer. -/
theorem match_all_trivial_accepts (regex : String → String → Option Bool) (route : String)
    (matcher : List String) (path : String)
    (htriv : ∀ m ∈ matcher, m = "" ∨ m = ".*")
    (hlen : matcher.length ≤ (splitSlash path).length) :
    matchGo regex route matcher path = some true := by
  unfold matchGo
  split
  · rfl
  · exact matchLoop_all_trivial regex (splitSlash path) matcher 0 htriv

/-- C9 witness: the hypotheses hold for the matcher of dot star and the
empty pattern against a two-segment path, and the theorem yields the
accept verdict there. -/
theorem match_all_trivial_accepts_app :
    (∀ m ∈ ([".*", ""] : List String), m = "" ∨ m = ".*")
    ∧ ([".*", ""] : List String).length ≤ (splitSlash "/a/b").length
    ∧ matchGo (fun _ _ => none) "/r" [".*", ""] "/a/b" = some true :=
  ⟨by decide, by decide,
    match_all_trivial_accepts (fun _ _ => none) "/r" [".*", ""] "/a/b"
      (by decide) (by decide)⟩

theorem trivialPat_not_cond {m : String} (hm : trivialPat m) : ¬ (m ≠ "" ∧ m ≠ ".*") :=
  fun hc => hm.elim hc.1 hc.2

theorem trivialPat_cond {m : String} (hm : ¬ trivialPat m) : m ≠ "" ∧ m ≠ ".*" :=
  ⟨fun h1 => hm (Or.inl h1), fun h2 => hm (Or.inr h2)⟩

theorem getElem?_of_lt (parts : List String) (n : Nat) (h : n < parts.length) :
    parts[n]? = some (parts.getD n "") := by
  rw [List.getD_eq_getElem?_getD]
  cases hx : parts[n]? with
  | none =>
    rw [List.getElem?_eq_none_iff] at hx
    omega
  | some v => rfl

theorem matchLoop_cons_trivial (regex : String → String → Option Bool) (m : String)
    (t parts : List String) (i : Nat) (hm : trivialPat m) :
    matchLoop regex (m :: t) parts i = matchLoop regex t parts (i + 1) := by
  simp only [matchLoop, if_neg (trivialPat_not_cond hm)]

theorem matchLoop_cons_seg (regex : String → String → Option Bool) (m : String)
    (t parts : List String) (i : Nat) (seg : String) (hm : ¬ trivialPat m)
    (hseg : parts[i+1]? = some seg) :
    matchLoop regex (m :: t) parts i
      = (match regex m seg with
         | some true => matchLoop regex t parts (i + 1)
         | _ => some false) := by
  simp only [matchLoop, if_pos (trivialPat_cond hm), hseg]

theorem matchLoop_eq_true_iff (regex : String → String → Option Bool)
    (parts : List String) : ∀ (ms : List String) (i : Nat),
    (∀ j, j < ms.length → i + j + 1 < parts.length) →
    (matchLoop regex ms parts i = some true ↔
      ∀ j, j < ms.length → ¬ trivialPat (ms.getD j "") →
        regex (ms.getD j "") (parts.getD (i + j + 1) "") = some true) := by
  intro ms
  induction ms with
  | nil =>
    intro i _
    constructor
    · intro _ j hj
      exact absurd hj (by simp)
    · intro _
      rfl
  | cons m t ih =>
    intro i h
    have hlen0 : i + 1 < parts.length := by
      have := h 0 (by simp)
      omega
    have hih := ih (i + 1) (fun j hj => by
      have := h (j + 1) (by simp only [List.length_cons]; omega)
      omega)
    by_cases hm : trivialPat m
    · rw [matchLoop_cons_trivial regex m t parts i hm]
      rw [hih]
      constructor
      · intro hall j hj hnt
        cases j with
        | zero =>
          rw [List.getD_cons_zero] at hnt
          exact absurd hm hnt
        | succ j' =>
          rw [List.getD_cons_succ] at hnt ⊢
          have hj' : j' < t.length := by
            simp only [List.length_cons] at hj
            omega
          have hr := hall j' hj' hnt
          rw [show i + 1 + j' + 1 = i + (j' + 1) + 1 from by omega] at hr
          exact hr
      · intro hall j hj hnt
        have hr := hall (j + 1) (by simp only [List.length_cons]; omega)
          (by rw [List.getD_cons_succ]; exact hnt)
        rw [List.getD_cons_succ] at hr
        rw [show i + (j + 1) + 1 = i + 1 + j + 1 from by omega] at hr
        exact hr
    · have hseg := getElem?_of_lt parts (i + 1) hlen0
      rw [matchLoop_cons_seg regex m t parts i (parts.getD (i + 1) "") hm hseg]
      cases hreg : regex m (parts.getD (i + 1) "") with
      | none =>
        constructor
        · intro hc
          exact absurd hc (by simp)
        · intro hall
          have h0 := hall 0 (by simp) (by rw [List.getD_cons_zero]; exact hm)
          rw [List.getD_cons_zero] at h0
          simp only [Nat.add_zero] at h0
          rw [hreg] at h0
          exact absurd h0 (by simp)
      | some b =>
        cases b with
        | false =>
          constructor
          · intro hc
            exact absurd hc (by simp)
          · intro hall
            have h0 := hall 0 (by simp) (by rw [List.getD_cons_zero]; exact hm)
            rw [List.getD_cons_zero] at h0
            simp only [Nat.add_zero] at h0
            rw [hreg] at h0
            exact absurd h0 (by simp)
        | true =>
          show matchLoop regex t parts (i + 1) = some true ↔ _
          rw [hih]
          constructor
          · intro hall j hj hnt
            cases j with
            | zero =>
              rw [List.getD_cons_zero] at hnt ⊢
              simp only [Nat.add_zero]
              exact hreg
            | succ j' =>
              rw [List.getD_cons_succ] at hnt ⊢
              have hj' : j' < t.length := by
                simp only [List.length_cons] at hj
                omega
              have hr := hall j' hj' hnt
              rw [show i + 1 + j' + 1 = i + (j' + 1) + 1 from by omega] at hr
              exact hr
          · intro hall j hj hnt
            have hr := hall (j + 1) (by simp only [List.length_cons]; omega)
              (by rw [List.getD_cons_succ]; exact hnt)
            rw [List.getD_cons_succ] at hr
            rw [show i + (j + 1) + 1 = i + 1 + j + 1 from by omega] at hr
            exact hr

theorem matchLoop_ne_none (regex : String → String → Option Bool)
    (parts : List String) : ∀ (ms : List String) (i : Nat),
    (∀ j, j < ms.length → i + j + 1 < parts.length) →
    matchLoop regex ms parts i ≠ none := by
  intro ms
  induction ms with
  | nil =>
    intro i _
    simp [matchLoop]
  | cons m t ih =>
    intro i h
    have hlen0 : i + 1 < parts.length := by
      have := h 0 (by simp)
      omega
    have hih := ih (i + 1) (fun j hj => by
      have := h (j + 1) (by simp only [List.length_cons]; omega)
      omega)
    by_cases hm : trivialPat m
    · rw [matchLoop_cons_trivial regex m t parts i hm]
      exact hih
    · rw [matchLoop_cons_seg regex m t parts i (parts.getD (i + 1) "") hm
        (getElem?_of_lt parts (i + 1) hlen0)]
      cases hreg : regex m (parts.getD (i + 1) "") with
      | none => simp
      | some b =>
        cases b with
        | false => simp
        | true =>
          show matchLoop regex t parts (i + 1) ≠ none
          exact hih

theorem matchLoop_first_failure (regex : String → String → Option Bool)
    (parts : List String) : ∀ (pre : List String) (m : String) (post : List String) (i : Nat),
    (∀ j, j < pre.length → i + j + 1 < parts.length) →
    (∀ j, j < pre.length → ¬ trivialPat (pre.getD j "") →
        regex (pre.getD j "") (parts.getD (i + j + 1) "") = some true) →
    ¬ trivialPat m →
    i + pre.length + 1 < parts.length →
    regex m (parts.getD (i + pre.length + 1) "") ≠ some true →
    matchLoop regex (pre ++ m :: post) parts i = some false := by
  intro pre
  induction pre with
  | nil =>
    intro m post i _ _ hm hlen hfail
    simp only [List.length_nil, Nat.add_zero] at hlen hfail
    rw [List.nil_append]
    rw [matchLoop_cons_seg regex m post parts i (parts.getD (i + 1) "") hm
      (getElem?_of_lt parts (i + 1) hlen)]
    cases hreg : regex m (parts.getD (i + 1) "") with
    | none => rfl
    | some b =>
      cases b with
      | false => rfl
      | true => exact absurd hreg hfail
  | cons p pre ih =>
    intro m post i hb hpass hm hlen hfail
    have hlen0 : i + 1 < parts.length := by
      have := hb 0 (by simp)
      omega
    have hbs : ∀ j, j < pre.length → i + 1 + j + 1 < parts.length := fun j hj => by
      have := hb (j + 1) (by simp only [List.length_cons]; omega)
      omega
    have hpasss : ∀ j, j < pre.length → ¬ trivialPat (pre.getD j "") →
        regex (pre.getD j "") (parts.getD (i + 1 + j + 1) "") = some true := by
      intro j hj hnt
      have hr := hpass (j + 1) (by simp only [List.length_cons]; omega)
        (by rw [List.getD_cons_succ]; exact hnt)
      rw [List.getD_cons_succ] at hr
      rw [show i + (j + 1) + 1 = i + 1 + j + 1 from by omega] at hr
      exact hr
    have hlens : i + 1 + pre.length + 1 < parts.length := by
      simp only [List.length_cons] at hlen
      omega
    have hfails : regex m (parts.getD (i + 1 + pre.length + 1) "") ≠ some true := by
      rw [show i + 1 + pre.length + 1 = i + (p :: pre).length + 1 from by
        simp only [List.length_cons]; omega]
      exact hfail
    rw [List.cons_append]
    by_cases hp : trivialPat p
    · rw [matchLoop_cons_trivial regex p (pre ++ m :: post) parts i hp]
      exact ih m post (i + 1) hbs hpasss hm hlens hfails
    · have h0 := hpass 0 (by simp) (by rw [List.getD_cons_zero]; exact hp)
      rw [List.getD_cons_zero] at h0
      simp only [Nat.add_zero] at h0
      rw [matchLoop_cons_seg regex p (pre ++ m :: post) parts i (parts.getD (i + 1) "") hp
        (getElem?_of_lt parts (i + 1) hlen0)]
      rw [h0]
      show matchLoop regex (pre ++ m :: post) parts (i + 1) = some false
      exact ih m post (i + 1) hbs hpasss hm hlens hfails

/-- C4: with a non-empty matcher and a request path holding enough
segments, match returns true exactly when each pattern that is neither
the empty string nor dot star is answered positively by the regex
engine on segment i+1 of the slash-split path; the evaluation never
faults there, and a regex error or non-match at the first failing index
makes the result false whatever the later patterns hold, so evaluation
stops at the first failing segment. -/
theorem match_characterized (regex : String → String → Option Bool) (route : String)
    (matcher : List String) (path : String)
    (hne : matcher ≠ [])
    (hlen : matcher.length + 1 ≤ (splitSlash path).length) :
    (matchGo regex route matcher path = some true ↔
      ∀ i, i < matcher.length → ¬ trivialPat (matcher.getD i "") →
        regex (matcher.getD i "") ((splitSlash path).getD (i + 1) "") = some true)
    ∧ matchGo regex route matcher path ≠ none
    ∧ ∀ (pre : List String) (m : String) (post : List String),
        matcher = pre ++ m :: post →
        (∀ j, j < pre.length → ¬ trivialPat (pre.getD j "") →
            regex (pre.getD j "") ((splitSlash path).getD (j + 1) "") = some true) →
        ¬ trivialPat m →
        regex m ((splitSlash path).getD (pre.length + 1) "") ≠ some true →
        matchGo regex route matcher path = some false := by
  have hne' : ¬ matcher.length = 0 := by
    intro h0
    exact hne (List.length_eq_zero.mp h0)
  have hunfold : matchGo regex route matcher path
      = matchLoop regex matcher (splitSlash path) 0 := by
    unfold matchGo
    rw [if_neg hne']
  refine ⟨?_, ?_, ?_⟩
  · rw [hunfold]
    have hch := matchLoop_eq_true_iff regex (splitSlash path) matcher 0
      (fun j hj => by omega)
    simp only [Nat.zero_add] at hch
    exact hch
  · rw [hunfold]
    exact matchLoop_ne_none regex (splitSlash path) matcher 0 (fun j hj => by omega)
  · intro pre m post heq hpass hm hfail
    have hml : matcher.length = pre.length + post.length + 1 := by
      rw [heq, List.length_append, List.length_cons]
      omega
    rw [hunfold, heq]
    have hsc := matchLoop_first_failure regex (splitSlash path) pre m post 0
      (fun j hj => by omega)
      (by simpa only [Nat.zero_add] using hpass)
      hm
      (by omega)
      (by simpa only [Nat.zero_add] using hfail)
    exact hsc

/-- C4 witness: a digit-oracle regex engine, a one-pattern matcher and a
two-segment path satisfy the hypotheses, and the theorem rules out the
fault outcome there. -/
theorem match_characterized_app :
    (["[0-9]+"] : List String) ≠ []
    ∧ (["[0-9]+"] : List String).length + 1 ≤ (splitSlash "/items/42").length
    ∧ matchGo (fun _ s => some (s.all Char.isDigit)) "/items/:id" ["[0-9]+"] "/items/42" ≠ none :=
  ⟨by decide, by decide,
    (match_characterized (fun _ s => some (s.all Char.isDigit)) "/items/:id" ["[0-9]+"]
      "/items/42" (by decide) (by decide)).2.1⟩

theorem BadRequest_eq (w : ResponseWriter) (r : Request) (reason : String) :
    BadRequest w r reason
      = (w.writeHeader 400).writeBody
          (encodeHTTPErrorStatus ⟨400, statusText 400, reason, []⟩ ++ "\n") := by
  unfold BadRequest
  rw [ErrorResponse_envelope]

theorem routeWrapper_unmatched (regex : String → String → Option Bool) (tlsOn : Bool)
    (om : List (String × List String)) (method route : String) (matcher : List String)
    (handler : WrappedWriter → WrappedWriter) (r : Request) (w : ResponseWriter)
    (hmatch : matchGo regex route matcher r.urlPath = some false) :
    routeWrapper regex tlsOn om method route matcher handler r w
      = some (BadRequest (if tlsOn then
            w.addHeader "Strict-Transport-Security" "max-age=31536000; includeSubDomains"
          else w) r "route does not match",
          ⟨true, "hit", method, route, r.requestURI, r.remoteAddr, 400, 0⟩) := by
  unfold routeWrapper
  rw [hmatch]

/-- C5: when the matcher of a registered route rejects the request, the
dispatch wrapper responds 400 with an error envelope whose reason is
route does not match, and emits an access-log entry flagged as an error
with status 400 and zero bytes. -/
theorem wrapper_unmatched_responds_400 (regex : String → String → Option Bool)
    (tlsOn : Bool) (om : List (String × List String)) (method route : String)
    (matcher : List String) (handler : WrappedWriter → WrappedWriter) (r : Request)
    (w : ResponseWriter)
    (hmatch : matchGo regex route matcher r.urlPath = some false)
    (hs : w.statusCalls = []) (hb : w.body = "") :
    ∃ w1, routeWrapper regex tlsOn om method route matcher handler r w
        = some (w1, ⟨true, "hit", method, route, r.requestURI, r.remoteAddr, 400, 0⟩)
      ∧ w1.firstStatus = some 400
      ∧ w1.body
          = "\x7b\"code\":400,\"message\":\"Bad Request\",\"reason\":\"route does not match\"\x7d\n" := by
  have hbody : encodeHTTPErrorStatus ⟨400, statusText 400, "route does not match", []⟩ ++ "\n"
      = "\x7b\"code\":400,\"message\":\"Bad Request\",\"reason\":\"route does not match\"\x7d\n" := by
    decide
  rw [routeWrapper_unmatched regex tlsOn om method route matcher handler r w hmatch]
  refine ⟨_, rfl, ?_, ?_⟩
  · rw [BadRequest_eq]
    unfold ResponseWriter.firstStatus
    cases tlsOn <;> simp [hs]
  · rw [BadRequest_eq]
    cases tlsOn <;> simp [hb, hbody]

/-- C5 witness: a rejecting regex engine, a one-pattern matcher and a
fresh writer satisfy the hypotheses, and the wrapper produces the 400
envelope and the error log entry there. -/
theorem wrapper_unmatched_responds_400_app :
    matchGo (fun _ _ => some false) "/p" ["x"] "/a/b" = some false
    ∧ ∃ w1, routeWrapper (fun _ _ => some false) false [] "GET" "/p" ["x"] id
          ⟨"/a/b", "/a/b", "10.0.0.1:1"⟩ ResponseWriter.empty
        = some (w1, ⟨true, "hit", "GET", "/p", "/a/b", "10.0.0.1:1", 400, 0⟩)
      ∧ w1.firstStatus = some 400
      ∧ w1.body
          = "\x7b\"code\":400,\"message\":\"Bad Request\",\"reason\":\"route does not match\"\x7d\n" :=
  ⟨by decide,
    wrapper_unmatched_responds_400 (fun _ _ => some false) false [] "GET" "/p" ["x"] id
      ⟨"/a/b", "/a/b", "10.0.0.1:1"⟩ ResponseWriter.empty (by decide) rfl rfl⟩

theorem lookupOM_cons_pos (a : String × List String) (t : List (String × List String))
    (route : String) (ha : a.1 = route) : lookupOM (a :: t) route = a.2 := by
  unfold lookupOM
  have hpa : (fun p : String × List String => p.1 == route) a = true := by simp [ha]
  rw [List.find?_cons_of_pos t hpa]
  rfl

theorem lookupOM_cons_neg (a : String × List String) (t : List (String × List String))
    (route : String) (ha : ¬ a.1 = route) : lookupOM (a :: t) route = lookupOM t route := by
  unfold lookupOM
  have hpa : ¬ (fun p : String × List String => p.1 == route) a = true := by simp [ha]
  rw [List.find?_cons_of_neg t hpa]

theorem lookupOM_map_add (route method : String) : ∀ (om : List (String × List String)),
    om.any (fun p => p.1 == route) = true →
    lookupOM (om.map (fun p => if p.1 == route then (p.1, p.2 ++ [method]) else p)) route
      = lookupOM om route ++ [method] := by
  intro om
  induction om with
  | nil => intro hin; simp at hin
  | cons a t ih =>
    intro hin
    by_cases ha : a.1 = route
    · rw [List.map_cons,
        show (if a.1 == route then (a.1, a.2 ++ [method]) else a) = (a.1, a.2 ++ [method]) from by
          simp [ha]]
      rw [lookupOM_cons_pos (a.1, a.2 ++ [method]) _ route ha]
      rw [lookupOM_cons_pos a t route ha]
    · rw [List.map_cons,
        show (if a.1 == route then (a.1, a.2 ++ [method]) else a) = a from by simp [ha]]
      rw [lookupOM_cons_neg a _ route ha, lookupOM_cons_neg a t route ha]
      apply ih
      simp only [List.any_cons] at hin
      simpa [ha] using hin

theorem lookupOM_map_other (route method q : String) (hq : ¬ q = route) :
    ∀ (om : List (String × List String)),
    lookupOM (om.map (fun p => if p.1 == route then (p.1, p.2 ++ [method]) else p)) q
      = lookupOM om q := by
  intro om
  induction om with
  | nil => rfl
  | cons a t ih =>
    by_cases ha : a.1 = route
    · rw [List.map_cons,
        show (if a.1 == route then (a.1, a.2 ++ [method]) else a) = (a.1, a.2 ++ [method]) from by
          simp [ha]]
      have haq : ¬ a.1 = q := by
        rw [ha]
        intro hc
        exact hq hc.symm
      rw [lookupOM_cons_neg (a.1, a.2 ++ [method]) _ q haq, lookupOM_cons_neg a t q haq]
      exact ih
    · rw [List.map_cons,
        show (if a.1 == route then (a.1, a.2 ++ [method]) else a) = a from by simp [ha]]
      by_cases haq : a.1 = q
      · rw [lookupOM_cons_pos a _ q haq, lookupOM_cons_pos a t q haq]
      · rw [lookupOM_cons_neg a _ q haq, lookupOM_cons_neg a t q haq]
        exact ih

theorem lookupOM_append_new (route method : String) : ∀ (om : List (String × List String)),
    om.any (fun p => p.1 == route) = false →
    lookupOM (om ++ [(route, [method])]) route = [method] ∧ lookupOM om route = [] := by
  intro om
  induction om with
  | nil =>
    intro _
    exact ⟨lookupOM_cons_pos (route, [method]) [] route rfl, rfl⟩
  | cons a t ih =>
    intro hin
    have ha : ¬ a.1 = route := by
      intro h
      simp [List.any_cons, h] at hin
    have hin' : t.any (fun p => p.1 == route) = false := by
      simp only [List.any_cons] at hin
      simpa [ha] using hin
    rw [List.cons_append, lookupOM_cons_neg a _ route ha, lookupOM_cons_neg a t route ha]
    exact ih hin'

theorem lookupOM_append_other (route : String) (l : List String) (q : String)
    (hq : ¬ q = route) : ∀ (om : List (String × List String)),
    lookupOM (om ++ [(route, l)]) q = lookupOM om q := by
  intro om
  induction om with
  | nil =>
    rw [List.nil_append, lookupOM_cons_neg (route, l) [] q (fun hc => hq hc.symm)]
  | cons a t ih =>
    by_cases haq : a.1 = q
    · rw [List.cons_append, lookupOM_cons_pos a _ q haq, lookupOM_cons_pos a t q haq]
    · rw [List.cons_append, lookupOM_cons_neg a _ q haq, lookupOM_cons_neg a t q haq]
      exact ih

theorem lookupOM_insertOM_same (om : List (String × List String)) (route method : String) :
    lookupOM (insertOM om route method) route = lookupOM om route ++ [method] := by
  unfold insertOM
  cases hin : om.any (fun p => p.1 == route) with
  | true =>
    rw [if_pos rfl]
    exact lookupOM_map_add route method om hin
  | false =>
    rw [if_neg Bool.false_ne_true]
    obtain ⟨h1, h2⟩ := lookupOM_append_new route method om hin
    rw [h1, h2]
    rfl

theorem lookupOM_insertOM_other (om : List (String × List String)) (route method q : String)
    (hq : ¬ q = route) :
    lookupOM (insertOM om route method) q = lookupOM om q := by
  unfold insertOM
  cases hin : om.any (fun p => p.1 == route) with
  | true =>
    rw [if_pos rfl]
    exact lookupOM_map_other route method q hq om
  | false =>
    rw [if_neg Bool.false_ne_true]
    exact lookupOM_append_other route [method] q hq om

theorem lookupOM_foldl_insert (method : String) : ∀ (rs : List String)
    (om : List (String × List String)) (route : String),
    rs.Nodup →
    lookupOM (rs.foldl (fun om r => insertOM om r method) om) route
      = lookupOM om route ++ (if route ∈ rs then [method] else []) := by
  intro rs
  induction rs with
  | nil =>
    intro om route _
    simp
  | cons r rs ih =>
    intro om route hnd
    rw [List.foldl_cons]
    have hnd2 : rs.Nodup := (List.nodup_cons.mp hnd).2
    have hr : r ∉ rs := (List.nodup_cons.mp hnd).1
    by_cases hq : route = r
    · subst hq
      rw [ih (insertOM om route method) route hnd2, lookupOM_insertOM_same]
      simp [hr]
    · rw [ih (insertOM om r method) route hnd2,
        lookupOM_insertOM_other om r method route hq]
      simp [List.mem_cons, hq]

theorem registeredMethods_cons (mr : String × List String)
    (rts : List (String × List String)) (route : String) :
    registeredMethods (mr :: rts) route
      = (if mr.2.contains route then [mr.1] else []) ++ registeredMethods rts route := by
  unfold registeredMethods
  rw [List.filter_cons]
  by_cases hc : mr.2.contains route = true
  · rw [if_pos hc, if_pos hc]
    rfl
  · rw [if_neg hc, if_neg hc]
    rfl

theorem lookupOM_build (route : String) : ∀ (rts : List (String × List String)),
    (∀ p ∈ rts, p.2.Nodup) →
    ∀ (om : List (String × List String)),
    lookupOM (rts.foldl (fun om mr => mr.2.foldl (fun om r => insertOM om r mr.1) om) om) route
      = lookupOM om route ++ registeredMethods rts route := by
  intro rts
  induction rts with
  | nil =>
    intro _ om
    simp [registeredMethods]
  | cons mr rts ih =>
    intro hnd om
    rw [List.foldl_cons]
    rw [ih (fun p hp => hnd p (by simp [hp])) _]
    rw [lookupOM_foldl_insert mr.1 mr.2 om route (hnd mr (by simp))]
    rw [registeredMethods_cons]
    by_cases hc : route ∈ mr.2
    · rw [if_pos hc, if_pos (List.elem_iff.mpr hc)]
      rw [List.append_assoc]
    · rw [if_neg hc, if_neg (fun h => hc (List.elem_iff.mp h))]
      rw [List.append_nil, List.nil_append]

theorem lookupOM_buildOptionsMappings (routes : List (String × List String)) (route : String)
    (hnd : ∀ p ∈ routes, p.2.Nodup) :
    lookupOM (buildOptionsMappings routes) route = registeredMethods routes route := by
  unfold buildOptionsMappings
  rw [lookupOM_build route routes hnd []]
  rfl

theorem registeredMethods_nodup (routes : List (String × List String)) (route : String)
    (hkeys : (routes.map Prod.fst).Nodup) :
    (registeredMethods routes route).Nodup := by
  unfold registeredMethods
  exact List.Nodup.sublist (List.Sublist.map Prod.fst (List.filter_sublist routes)) hkeys

theorem registeredMethods_mem (routes : List (String × List String)) (route m : String) :
    m ∈ registeredMethods routes route ↔ ∃ p ∈ routes, p.1 = m ∧ route ∈ p.2 := by
  unfold registeredMethods
  simp only [List.mem_map, List.mem_filter]
  constructor
  · rintro ⟨p, ⟨hp, hc⟩, hm⟩
    exact ⟨p, hp, hm, List.elem_iff.mp hc⟩
  · rintro ⟨p, hp, hm, hc⟩
    exact ⟨p, ⟨hp, List.elem_iff.mpr hc⟩, hm⟩

theorem writeHeaders_allow_methods (om : List (String × List String)) (w : ResponseWriter)
    (route : String) :
    (writeHeaders om w route).getHeaderValues "Access-Control-Allow-Methods"
      = w.getHeaderValues "Access-Control-Allow-Methods"
        ++ ["OPTIONS, " ++ String.intercalate ", " (lookupOM om route)] := by
  unfold writeHeaders
  simp [getHeaderValues_addHeader]

/-- C6: for a path registered in the route table, the synthesized
OPTIONS wrapper answers status 200 with an empty body and a matching
non-error log entry, and the Access-Control-Allow-Methods header it
emits is OPTIONS followed by exactly the methods under which the path
is registered, with no duplicates, provided the method keys of the
table are distinct, the route lists are duplicate-free and OPTIONS
itself was not manually registered. -/
theorem options_handler_allow_methods (routes : List (String × List String))
    (route : String) (tlsOn : Bool) (r : Request)
    (hkeys : (routes.map Prod.fst).Nodup)
    (hrs : ∀ p ∈ routes, p.2.Nodup)
    (hreg : registeredMethods routes route ≠ [])
    (hnoOpt : "OPTIONS" ∉ registeredMethods routes route) :
    (optionsWrapper tlsOn (buildOptionsMappings routes) route r
        ResponseWriter.empty).1.firstStatus = some 200
    ∧ (optionsWrapper tlsOn (buildOptionsMappings routes) route r
        ResponseWriter.empty).1.body = ""
    ∧ (optionsWrapper tlsOn (buildOptionsMappings routes) route r
        ResponseWriter.empty).2.code = 200
    ∧ (optionsWrapper tlsOn (buildOptionsMappings routes) route r
        ResponseWriter.empty).2.size = 0
    ∧ (optionsWrapper tlsOn (buildOptionsMappings routes) route r
        ResponseWriter.empty).2.isErr = false
    ∧ (optionsWrapper tlsOn (buildOptionsMappings routes) route r
        ResponseWriter.empty).1.getHeaderValues "Access-Control-Allow-Methods"
        = ["OPTIONS, " ++ String.intercalate ", " (registeredMethods routes route)]
    ∧ ("OPTIONS" :: registeredMethods routes route).Nodup
    ∧ (∀ m, m ∈ "OPTIONS" :: registeredMethods routes route
        ↔ m = "OPTIONS" ∨ ∃ p ∈ routes, p.1 = m ∧ route ∈ p.2) := by
  have hbuild := lookupOM_buildOptionsMappings routes route hrs
  refine ⟨?_, ?_, rfl, rfl, rfl, ?_, ?_, ?_⟩
  · cases tlsOn <;> rfl
  · cases tlsOn <;> rfl
  · rw [show (optionsWrapper tlsOn (buildOptionsMappings routes) route r
          ResponseWriter.empty).1
        = (writeHeaders (buildOptionsMappings routes)
            (if tlsOn then
              ResponseWriter.empty.addHeader "Strict-Transport-Security"
                "max-age=31536000; includeSubDomains"
            else ResponseWriter.empty) route).writeHeader 200 from rfl]
    rw [getHeaderValues_writeHeader, writeHeaders_allow_methods, hbuild]
    cases tlsOn with
    | false => rfl
    | true =>
      rw [if_pos rfl, getHeaderValues_addHeader, if_neg (by decide)]
      rfl
  · exact List.nodup_cons.mpr ⟨hnoOpt, registeredMethods_nodup routes route hkeys⟩
  · intro m
    rw [List.mem_cons, registeredMethods_mem]

/-- C6 witness: a table registering GET and PUT for one path satisfies
the hypotheses, and the theorem yields the allow-methods header value
for that path. -/
theorem options_handler_allow_methods_app :
    (([("GET", ["/items/:id"]), ("PUT", ["/items/:id"])]
        : List (String × List String)).map Prod.fst).Nodup
    ∧ registeredMethods [("GET", ["/items/:id"]), ("PUT", ["/items/:id"])] "/items/:id" ≠ []
    ∧ "OPTIONS" ∉ registeredMethods [("GET", ["/items/:id"]), ("PUT", ["/items/:id"])]
        "/items/:id"
    ∧ (optionsWrapper false
          (buildOptionsMappings [("GET", ["/items/:id"]), ("PUT", ["/items/:id"])])
          "/items/:id" ⟨"/items/:id", "/items/:id", "client"⟩
          ResponseWriter.empty).1.getHeaderValues "Access-Control-Allow-Methods"
        = ["OPTIONS, " ++ String.intercalate ", "
            (registeredMethods [("GET", ["/items/:id"]), ("PUT", ["/items/:id"])]
              "/items/:id")] :=
  ⟨by decide, by decide, by decide,
    (options_handler_allow_methods [("GET", ["/items/:id"]), ("PUT", ["/items/:id"])]
      "/items/:id" false ⟨"/items/:id", "/items/:id", "client"⟩
      (by decide) (by decide) (by decide) (by decide)).2.2.2.2.2.1⟩

end Rest
